import Mathlib

/-!
Verification of `comma/hypothesis.py` (class `Hypothesis`) and of the
cross-file CSV consistency check in `tests/test_validate_csvs.py`.

The Python code is shallowly embedded: calendar dates (Python `datetime`
restricted to `%Y-%m-%d` parsing) become a `Date` structure ordered
lexicographically; the regex search for `\d{4}-\d{2}-\d{2}` becomes a
character-list scanner; raising becomes returning `Except.error`; the
parameter directory becomes an explicit association list of file names to
parsed tables.  ASCII digits are assumed (the repository's paths and CSV
headers are ASCII).
-/

/-- A calendar date, as carried by a Python `datetime` parsed with
format `%Y-%m-%d` (time components are always zero there). -/
structure Date where
  year : Nat
  month : Nat
  day : Nat
deriving DecidableEq, Repr

/-- `datetime` comparison: lexicographic on (year, month, day). -/
def dateLt (a b : Date) : Prop :=
  a.year < b.year ∨ (a.year = b.year ∧
    (a.month < b.month ∨ (a.month = b.month ∧ a.day < b.day)))

/-- `datetime` non-strict comparison. -/
def dateLe (a b : Date) : Prop := dateLt a b ∨ a = b

instance (a b : Date) : Decidable (dateLt a b) := by
  unfold dateLt; exact inferInstance

instance (a b : Date) : Decidable (dateLe a b) := by
  unfold dateLe; exact inferInstance

/-- Gregorian leap year, as implemented by Python's `datetime`. -/
def isLeap (y : Nat) : Bool :=
  (y % 4 == 0 && y % 100 != 0) || y % 400 == 0

/-- Number of days of month `m` of year `y` (Python `calendar` rules,
used by `datetime` to validate a parsed day). -/
def daysInMonth (y m : Nat) : Nat :=
  if m = 2 then (if isLeap y then 29 else 28)
  else if m = 4 ∨ m = 6 ∨ m = 9 ∨ m = 11 then 30
  else 31

/-- Numeric value of an ASCII digit character. -/
def digitVal (c : Char) : Nat := c.toNat - '0'.toNat

/-- Model of `datetime.strptime(s, '%Y-%m-%d')` on a canonical
zero-padded ten-character input (the only shape the program feeds it:
either a full regex match `\d{4}-\d{2}-\d{2}` or a user-supplied
ISO date).  Returns `none` where Python raises `ValueError` (wrong
shape or an invalid calendar date). -/
def strptimeYMD (s : String) : Option Date :=
  match s.data with
  | [y1, y2, y3, y4, h1, m1, m2, h2, d1, d2] =>
    if y1.isDigit && y2.isDigit && y3.isDigit && y4.isDigit &&
       (h1 == '-') && m1.isDigit && m2.isDigit && (h2 == '-') &&
       d1.isDigit && d2.isDigit then
      let y := ((digitVal y1 * 10 + digitVal y2) * 10 + digitVal y3) * 10
                 + digitVal y4
      let m := digitVal m1 * 10 + digitVal m2
      let d := digitVal d1 * 10 + digitVal d2
      if 1 ≤ y ∧ 1 ≤ m ∧ m ≤ 12 ∧ 1 ≤ d ∧ d ≤ daysInMonth y m then
        some ⟨y, m, d⟩
      else none
    else none
  | _ => none

/-- One attempted match of the regex `(\d{4}-\d{2}-\d{2})` at the head of
a character list: ten characters of shape `dddd-dd-dd`. -/
def matchDateHere : List Char → Option (List Char)
  | y1 :: y2 :: y3 :: y4 :: h1 :: m1 :: m2 :: h2 :: d1 :: d2 :: _ =>
    if y1.isDigit && y2.isDigit && y3.isDigit && y4.isDigit &&
       (h1 == '-') && m1.isDigit && m2.isDigit && (h2 == '-') &&
       d1.isDigit && d2.isDigit then
      some [y1, y2, y3, y4, h1, m1, m2, h2, d1, d2]
    else none
  | _ => none

/-- Leftmost match: try every start position from the left, as
`re.search` does for this alternation-free pattern. -/
def findDateAux : List Char → Option (List Char)
  | [] => none
  | c :: rest =>
    match matchDateHere (c :: rest) with
    | some m => some m
    | none => findDateAux rest

/-- Model of `pattern.search(file)` followed by `.group(1)` for
`pattern = re.compile(r'(\d{4}-\d{2}-\d{2})')`: the first ten-character
substring of shape `dddd-dd-dd`, if any. -/
def findDate (s : String) : Option String :=
  (findDateAux s.data).map fun cs => ⟨cs⟩

/-- The embedded date of a path: regex search then `strptime`. -/
def extractDate (f : String) : Option Date :=
  (findDate f).bind strptimeYMD

/-- `True` when a regex match inside `f`, if there is one, parses to a
valid calendar date — i.e. the date-collection loop of `filter_dates`
does not raise on `f`. -/
def matchedParses (f : String) : Bool :=
  match findDate f with
  | none => true
  | some s => (strptimeYMD s).isSome

/-- The distinct exceptions `Hypothesis.filter_dates` can raise. -/
inductive FilterError
  /-- `ValueError` from `datetime.strptime` on an invalid date string. -/
  | strptimeError
  /-- `ValueError("Dates provided are not within the list")`. -/
  | noDates
  /-- `ValueError` carrying the requested window (as the two strings of
  `time_period`) and the available `min_date`/`max_date`. -/
  | outOfRange (t0 t1 : String) (minD maxD : Date)
  /-- `AttributeError`: `pattern.search(file)` returned `None` and
  `.group(1)` was called on it. -/
  | attrError
deriving DecidableEq, Repr

/-- The date-collection loop of `filter_dates`: paths with no regex
match are skipped; a match that fails to parse raises `ValueError`. -/
def collectDates : List String → Except FilterError (List Date)
  | [] => .ok []
  | f :: rest =>
    match findDate f with
    | none => collectDates rest
    | some s =>
      match strptimeYMD s with
      | none => .error .strptimeError
      | some d =>
        match collectDates rest with
        | .error e => .error e
        | .ok ds => .ok (d :: ds)

/-- Python `min` over a nonempty list of dates (first element plus
rest), keeping the earlier element on ties. -/
def listMin (d : Date) (ds : List Date) : Date :=
  ds.foldl (fun a b => if dateLt b a then b else a) d

/-- Python `max` over a nonempty list of dates. -/
def listMax (d : Date) (ds : List Date) : Date :=
  ds.foldl (fun a b => if dateLt a b then b else a) d

/-- The final list comprehension of `filter_dates`: for each path in
order, `pattern.search(file).group(1)` (raising `AttributeError` when
the search returns `None`), `strptime`, and the inclusive window test
`start <= d <= end`. -/
def doFilter (start endD : Date) : List String → Except FilterError (List String)
  | [] => .ok []
  | f :: rest =>
    match findDate f with
    | none => .error .attrError
    | some s =>
      match strptimeYMD s with
      | none => .error .strptimeError
      | some d =>
        match doFilter start endD rest with
        | .error e => .error e
        | .ok r => .ok (if dateLe start d ∧ dateLe d endD then f :: r else r)

/-- Model of `Hypothesis.filter_dates(file_list, time_period)`:
parse the two window endpoints, collect all embedded dates, raise if
none, raise if the window leaves `[min_date, max_date]`, otherwise
filter the paths by their embedded date (inclusive on both ends). -/
def filter_dates (file_list : List String) (time_period : String × String) :
    Except FilterError (List String) :=
  match strptimeYMD time_period.1 with
  | none => .error .strptimeError
  | some start =>
    match strptimeYMD time_period.2 with
    | none => .error .strptimeError
    | some endD =>
      match collectDates file_list with
      | .error e => .error e
      | .ok all_dates =>
        match all_dates with
        | [] => .error .noDates
        | d0 :: rest =>
          let min_date := listMin d0 rest
          let max_date := listMax d0 rest
          if dateLt start min_date ∨ dateLt max_date endD then
            .error (.outOfRange time_period.1 time_period.2 min_date max_date)
          else doFilter start endD file_list

/-- Decimal rendering of a year, zero-padded to four places, as
`str(datetime)` prints it. -/
def pad4 (n : Nat) : String :=
  if n < 10 then "000" ++ toString n
  else if n < 100 then "00" ++ toString n
  else if n < 1000 then "0" ++ toString n
  else toString n

/-- Decimal rendering zero-padded to two places. -/
def pad2 (n : Nat) : String :=
  if n < 10 then "0" ++ toString n else toString n

/-- `str(d)` for a midnight `datetime`, e.g. `2021-01-30 00:00:00`. -/
def dateTimeStr (d : Date) : String :=
  pad4 d.year ++ "-" ++ pad2 d.month ++ "-" ++ pad2 d.day ++ " 00:00:00"

/-- The message of the out-of-range `ValueError` of `filter_dates`,
exactly as the f-string builds it. -/
def outOfRangeMessage (t0 t1 : String) (minD maxD : Date) : String :=
  "time_period (" ++ t0 ++ " - " ++ t1 ++
    ") is outside available dates that go from (" ++
    dateTimeStr minD ++ " to " ++ dateTimeStr maxD ++ ")"

/-- `needle` occurs as a contiguous substring of `hay`. -/
def containsSub (needle hay : String) : Prop :=
  needle.data <:+: hay.data

instance (needle hay : String) : Decidable (containsSub needle hay) := by
  unfold containsSub; exact inferInstance

/-- The Boolean window test a path must pass to be kept. -/
def inWindow (start endD : Date) (f : String) : Bool :=
  match extractDate f with
  | some d => decide (dateLe start d ∧ dateLe d endD)
  | none => false

instance {ε α : Type} [DecidableEq ε] [DecidableEq α] :
    DecidableEq (Except ε α) := fun x y =>
  match x, y with
  | .ok a, .ok b => decidable_of_iff (a = b) (by simp)
  | .error a, .error b => decidable_of_iff (a = b) (by simp)
  | .ok _, .error _ => isFalse (by simp)
  | .error _, .ok _ => isFalse (by simp)

theorem collectDates_eq (fl : List String)
    (h : ∀ f ∈ fl, matchedParses f = true) :
    collectDates fl = .ok (fl.filterMap extractDate) := by
  induction fl with
  | nil => simp [collectDates]
  | cons f rest ih =>
    have hf := h f (List.mem_cons_self f rest)
    have hrest : ∀ g ∈ rest, matchedParses g = true :=
      fun g hg => h g (List.mem_cons_of_mem f hg)
    unfold matchedParses at hf
    simp only [collectDates, List.filterMap_cons]
    cases hfd : findDate f with
    | none =>
      have he : extractDate f = none := by unfold extractDate; rw [hfd]; rfl
      rw [he]
      exact ih hrest
    | some s =>
      rw [hfd] at hf
      dsimp only
      dsimp only at hf
      cases hsp : strptimeYMD s with
      | none => rw [hsp] at hf; simp at hf
      | some d =>
        have he : extractDate f = some d := by
          unfold extractDate; rw [hfd]; simpa using hsp
        rw [he, ih hrest]

theorem collectDates_nomatch (fl : List String)
    (h : ∀ f ∈ fl, findDate f = none) :
    collectDates fl = .ok [] := by
  induction fl with
  | nil => rfl
  | cons f rest ih =>
    have hf := h f (List.mem_cons_self f rest)
    simp only [collectDates]
    rw [hf]
    exact ih fun g hg => h g (List.mem_cons_of_mem f hg)

theorem doFilter_eq (start endD : Date) (fl : List String)
    (h : ∀ f ∈ fl, (extractDate f).isSome = true) :
    doFilter start endD fl = .ok (fl.filter (inWindow start endD)) := by
  induction fl with
  | nil => rfl
  | cons f rest ih =>
    have hf := h f (List.mem_cons_self f rest)
    have hrest := fun g hg => h g (List.mem_cons_of_mem f hg)
    unfold extractDate at hf
    simp only [doFilter, List.filter_cons]
    cases hfd : findDate f with
    | none => rw [hfd] at hf; simp at hf
    | some s =>
      rw [hfd] at hf
      dsimp only
      simp only [Option.some_bind] at hf
      cases hsp : strptimeYMD s with
      | none => rw [hsp] at hf; simp at hf
      | some d =>
        rw [ih hrest]
        have hw : inWindow start endD f =
            decide (dateLe start d ∧ dateLe d endD) := by
          unfold inWindow extractDate
          rw [hfd]
          simp [hsp]
        rw [hw]
        by_cases hc : dateLe start d ∧ dateLe d endD
        · simp [hc]
        · simp [hc]

theorem doFilter_attr (start endD : Date) (fl : List String)
    (h : ∀ f ∈ fl, matchedParses f = true)
    (hg : ∃ g ∈ fl, findDate g = none) :
    doFilter start endD fl = .error .attrError := by
  induction fl with
  | nil => simp at hg
  | cons f rest ih =>
    have hf := h f (List.mem_cons_self f rest)
    unfold matchedParses at hf
    simp only [doFilter]
    cases hfd : findDate f with
    | none => rfl
    | some s =>
      rw [hfd] at hf
      dsimp only
      dsimp only at hf
      cases hsp : strptimeYMD s with
      | none => rw [hsp] at hf; simp at hf
      | some d =>
        obtain ⟨g, hgmem, hgnone⟩ := hg
        rcases List.mem_cons.mp hgmem with hgf | hgr
        · rw [hgf] at hgnone; rw [hgnone] at hfd; cases hfd
        · rw [ih (fun x hx => h x (List.mem_cons_of_mem f hx)) ⟨g, hgr, hgnone⟩]

/-- C1: for every list of path strings each containing an embedded ISO
date (`extractDate` succeeds on each), and every requested window
`(t0, t1)` lying inside the parsed min/max of the list, `filter_dates`
returns exactly the subsequence of paths whose embedded date `d`
satisfies `t0 ≤ d ≤ t1` (inclusive on both ends, `List.filter`
preserving the original order). -/
theorem filter_dates_window_exact
    (fl : List String) (t0 t1 : String) (start endD d0 : Date) (rest : List Date)
    (hparse : ∀ f ∈ fl, (extractDate f).isSome = true)
    (h0 : strptimeYMD t0 = some start) (h1 : strptimeYMD t1 = some endD)
    (hdates : fl.filterMap extractDate = d0 :: rest)
    (hlo : ¬ dateLt start (listMin d0 rest))
    (hhi : ¬ dateLt (listMax d0 rest) endD) :
    filter_dates fl (t0, t1) = .ok (fl.filter (inWindow start endD)) := by
  have hmp : ∀ f ∈ fl, matchedParses f = true := by
    intro f hf
    have hx := hparse f hf
    unfold extractDate at hx
    unfold matchedParses
    cases hfd : findDate f with
    | none => rfl
    | some s => rw [hfd] at hx; simpa using hx
  unfold filter_dates
  rw [h0, h1, collectDates_eq fl hmp, hdates]
  dsimp only
  rw [if_neg (not_or.mpr ⟨hlo, hhi⟩)]
  exact doFilter_eq start endD fl hparse

theorem containsSub_refl (a : String) : containsSub a a :=
  ⟨[], [], by simp⟩

theorem containsSub_append_right {b m : String} (h : containsSub b m)
    (x : String) : containsSub b (m ++ x) := by
  obtain ⟨u, v, huv⟩ := h
  exact ⟨u, v ++ x.data, by simp [← huv]⟩

theorem containsSub_append_left (x : String) {b m : String}
    (h : containsSub b m) : containsSub b (x ++ m) := by
  obtain ⟨u, v, huv⟩ := h
  exact ⟨x.data ++ u, v, by simp [← huv]⟩

theorem containsSub_msg_t0 (t0 t1 : String) (mn mx : Date) :
    containsSub t0 (outOfRangeMessage t0 t1 mn mx) := by
  unfold outOfRangeMessage
  apply containsSub_append_right
  apply containsSub_append_right
  apply containsSub_append_right
  apply containsSub_append_right
  apply containsSub_append_right
  apply containsSub_append_right
  apply containsSub_append_right
  exact containsSub_append_left _ (containsSub_refl t0)

theorem containsSub_msg_t1 (t0 t1 : String) (mn mx : Date) :
    containsSub t1 (outOfRangeMessage t0 t1 mn mx) := by
  unfold outOfRangeMessage
  apply containsSub_append_right
  apply containsSub_append_right
  apply containsSub_append_right
  apply containsSub_append_right
  apply containsSub_append_right
  exact containsSub_append_left _ (containsSub_refl t1)

theorem containsSub_msg_min (t0 t1 : String) (mn mx : Date) :
    containsSub (dateTimeStr mn) (outOfRangeMessage t0 t1 mn mx) := by
  unfold outOfRangeMessage
  apply containsSub_append_right
  apply containsSub_append_right
  apply containsSub_append_right
  exact containsSub_append_left _ (containsSub_refl _)

theorem containsSub_msg_max (t0 t1 : String) (mn mx : Date) :
    containsSub (dateTimeStr mx) (outOfRangeMessage t0 t1 mn mx) := by
  unfold outOfRangeMessage
  apply containsSub_append_right
  exact containsSub_append_left _ (containsSub_refl _)

/-- C5: (1) when no path of the list contains a date-shaped substring,
`filter_dates` fails with the no-dates `ValueError`, an error distinct
from the out-of-range one; (2) when at least one embedded date parses
and the requested window leaves `[min_date, max_date]`, it fails with
the out-of-range `ValueError` carrying the requested window and the
available min/max, and the rendered message contains the two requested
date strings as well as `str(min_date)` and `str(max_date)`. -/
theorem filter_dates_range_errors :
    (∀ (fl : List String) (t0 t1 : String) (start endD : Date),
      strptimeYMD t0 = some start → strptimeYMD t1 = some endD →
      (∀ f ∈ fl, findDate f = none) →
      filter_dates fl (t0, t1) = .error .noDates ∧
      (∀ a b mn mx, (FilterError.noDates = FilterError.outOfRange a b mn mx) → False)) ∧
    (∀ (fl : List String) (t0 t1 : String) (start endD d0 : Date) (rest : List Date),
      strptimeYMD t0 = some start → strptimeYMD t1 = some endD →
      (∀ f ∈ fl, matchedParses f = true) →
      fl.filterMap extractDate = d0 :: rest →
      (dateLt start (listMin d0 rest) ∨ dateLt (listMax d0 rest) endD) →
      filter_dates fl (t0, t1) =
        .error (.outOfRange t0 t1 (listMin d0 rest) (listMax d0 rest)) ∧
      containsSub t0 (outOfRangeMessage t0 t1 (listMin d0 rest) (listMax d0 rest)) ∧
      containsSub t1 (outOfRangeMessage t0 t1 (listMin d0 rest) (listMax d0 rest)) ∧
      containsSub (dateTimeStr (listMin d0 rest))
        (outOfRangeMessage t0 t1 (listMin d0 rest) (listMax d0 rest)) ∧
      containsSub (dateTimeStr (listMax d0 rest))
        (outOfRangeMessage t0 t1 (listMin d0 rest) (listMax d0 rest))) := by
  constructor
  · intro fl t0 t1 start endD h0 h1 hnone
    refine ⟨?_, fun a b mn mx hc => by cases hc⟩
    unfold filter_dates
    rw [h0, h1, collectDates_nomatch fl hnone]
  · intro fl t0 t1 start endD d0 rest h0 h1 hmp hdates hguard
    refine ⟨?_, containsSub_msg_t0 _ _ _ _, containsSub_msg_t1 _ _ _ _,
      containsSub_msg_min _ _ _ _, containsSub_msg_max _ _ _ _⟩
    unfold filter_dates
    rw [h0, h1, collectDates_eq fl hmp, hdates]
    dsimp only
    rw [if_pos hguard]

/-- C9: for every file list containing at least one path with a
parseable embedded date and at least one path with no date-shaped
substring, and a requested window inside the parsed min/max bounds,
`filter_dates` fails with the `AttributeError` raised in the final
filtering comprehension (`pattern.search(file)` is `None`, so
`.group(1)` fails) instead of skipping or keeping the undated path. -/
theorem filter_dates_undated_attrError
    (fl : List String) (t0 t1 : String) (start endD d0 : Date) (rest : List Date)
    (h0 : strptimeYMD t0 = some start) (h1 : strptimeYMD t1 = some endD)
    (hmp : ∀ f ∈ fl, matchedParses f = true)
    (hdates : fl.filterMap extractDate = d0 :: rest)
    (hlo : ¬ dateLt start (listMin d0 rest))
    (hhi : ¬ dateLt (listMax d0 rest) endD)
    (hg : ∃ g ∈ fl, findDate g = none) :
    filter_dates fl (t0, t1) = .error .attrError := by
  unfold filter_dates
  rw [h0, h1, collectDates_eq fl hmp, hdates]
  dsimp only
  rw [if_neg (not_or.mpr ⟨hlo, hhi⟩)]
  exact doFilter_attr start endD fl hmp hg

theorem filter_dates_window_exact_witness :
    filter_dates
      ["data-rivm/tests/rivm_daily_2021-01-01.csv.gz",
       "data-rivm/tests/rivm_daily_2021-01-15.csv.gz",
       "data-rivm/tests/rivm_daily_2021-01-30.csv.gz"]
      ("2021-01-02", "2021-01-30") = .ok
      ["data-rivm/tests/rivm_daily_2021-01-15.csv.gz",
       "data-rivm/tests/rivm_daily_2021-01-30.csv.gz"] :=
  (filter_dates_window_exact
      ["data-rivm/tests/rivm_daily_2021-01-01.csv.gz",
       "data-rivm/tests/rivm_daily_2021-01-15.csv.gz",
       "data-rivm/tests/rivm_daily_2021-01-30.csv.gz"]
      "2021-01-02" "2021-01-30" ⟨2021, 1, 2⟩ ⟨2021, 1, 30⟩
      ⟨2021, 1, 1⟩ [⟨2021, 1, 15⟩, ⟨2021, 1, 30⟩]
      (by decide) (by decide) (by decide) (by decide)
      (by decide) (by decide)).trans (by decide)

theorem filter_dates_range_errors_witness :
    filter_dates ["data-rivm/tests/rivm_daily.csv.gz"]
      ("2021-01-02", "2021-01-30") = .error .noDates ∧
    filter_dates
      ["data-rivm/tests/rivm_daily_2021-01-01.csv.gz",
       "data-rivm/tests/rivm_daily_2021-01-30.csv.gz"]
      ("2021-02-01", "2026-03-15") =
      .error (.outOfRange "2021-02-01" "2026-03-15" ⟨2021, 1, 1⟩ ⟨2021, 1, 30⟩) ∧
    containsSub "2021-01-30"
      (outOfRangeMessage "2021-02-01" "2026-03-15" ⟨2021, 1, 1⟩ ⟨2021, 1, 30⟩) :=
  ⟨(filter_dates_range_errors.1 ["data-rivm/tests/rivm_daily.csv.gz"]
      "2021-01-02" "2021-01-30" ⟨2021, 1, 2⟩ ⟨2021, 1, 30⟩
      (by decide) (by decide) (by decide)).1,
   by
    have h := (filter_dates_range_errors.2
      ["data-rivm/tests/rivm_daily_2021-01-01.csv.gz",
       "data-rivm/tests/rivm_daily_2021-01-30.csv.gz"]
      "2021-02-01" "2026-03-15" ⟨2021, 2, 1⟩ ⟨2026, 3, 15⟩
      ⟨2021, 1, 1⟩ [⟨2021, 1, 30⟩]
      (by decide) (by decide) (by decide) (by decide) (by decide)).1
    exact h.trans (by decide),
   List.IsInfix.trans (by decide)
     (containsSub_msg_max "2021-02-01" "2026-03-15" ⟨2021, 1, 1⟩ ⟨2021, 1, 30⟩)⟩

theorem filter_dates_undated_attrError_witness :
    filter_dates
      ["data-rivm/tests/rivm_daily_2021-01-15.csv.gz",
       "data-rivm/tests/readme.txt"]
      ("2021-01-15", "2021-01-15") = .error .attrError :=
  filter_dates_undated_attrError
    ["data-rivm/tests/rivm_daily_2021-01-15.csv.gz",
     "data-rivm/tests/readme.txt"]
    "2021-01-15" "2021-01-15" ⟨2021, 1, 15⟩ ⟨2021, 1, 15⟩
    ⟨2021, 1, 15⟩ []
    (by decide) (by decide) (by decide) (by decide)
    (by decide) (by decide) (by decide)

/-- A CSV cell or a JSON scalar: a Python string or number. -/
inductive Cell
  | str (s : String)
  | num (n : Int)
deriving DecidableEq, Repr

/-- A parsed CSV table (a pandas `DataFrame`): header plus rows. -/
structure Table where
  columns : List String
  rows : List (List Cell)
deriving DecidableEq, Repr

/-- The parsed content of `params_individual.json`: an insertion-ordered
mapping from attribute name to a list of example lists. -/
abbrev PSpec : Type := List (String × List (List Cell))

/-- The parameter directory: the optional `params_individual.json`
content plus the CSV files by name. -/
structure FS where
  individual : Option PSpec
  files : List (String × Table)

/-- Read the file called `name`, if present. -/
def lookupFile (fs : FS) (name : String) : Option Table :=
  (fs.files.find? fun p => p.1 == name).map Prod.snd

/-- Write (create or overwrite) the file called `name`. -/
def setFile (fs : FS) (name : String) (t : Table) : FS :=
  { fs with files := (name, t) :: fs.files.filter fun p => p.1 != name }

/-- `Hypothesis.lockdown_policies`. -/
def lockdown_policies : List String := ["absent", "easy", "medium", "hard"]

/-- `Hypothesis.individual_status`. -/
def individual_status : List String := ["mh"]

/-- `Hypothesis.all_possible_actions`, the ten-action vocabulary. -/
def all_possible_actions : List String :=
  ["work_from_home", "maintain_physical_distance", "stay_at_home",
   "exercise", "socialise", "travel", "seek_help", "negative_coping",
   "positive_coping", "socialise_online"]

/-- `isinstance(x, str)` for a cell. -/
def isStrCell : Cell → Bool
  | .str _ => true
  | .num _ => false

/-- The string carried by a string cell (cells that reach this are
always strings in the verified paths). -/
def cellString : Cell → String
  | .str s => s
  | .num n => toString n

/-- `[key + '_' + v for v in value[0]]`; `none` models the `TypeError`
raised when some `v` of the string-led list is not a string. -/
def encodeLevels (key : String) : List Cell → Option (List String)
  | [] => some []
  | .str v :: rest => (encodeLevels key rest).map fun r => (key ++ "_" ++ v) :: r
  | .num _ :: _ => none

/-- One entry of the encoder: `isinstance(value[0][0], str)` decides
categorical (expand `value[0]` to `key_level` columns) versus numeric
(the single column `key`); `none` models the `IndexError` raised on an
empty `value` or `value[0]` and the `TypeError` on a mixed string-led
list. -/
def encodeEntry (key : String) : List (List Cell) → Option (List String)
  | [] => none
  | firstList :: _ =>
    match firstList with
    | [] => none
    | .str _ :: _ => encodeLevels key firstList
    | .num _ :: _ => some [key]

/-- Model of `Hypothesis._get_one_hot_encoded_features`: concatenate the
per-attribute encodings in specification order. -/
def get_one_hot_encoded_features (spec : PSpec) : Option (List String) :=
  (spec.mapM fun kv => encodeEntry kv.1 kv.2).map List.flatten

/-- The skeleton `create_empty_hypotheses` writes: columns `actions`,
`baseline` plus the encoded features; one row per action in vocabulary
order, the action name followed by a zero in every other column. -/
def skeletonTable (feats : List String) : Table :=
  { columns := "actions" :: "baseline" :: feats
    rows := all_possible_actions.map fun a =>
      .str a :: List.replicate (feats.length + 1) (.num 0) }

/-- The names `create_empty_hypotheses` writes, in order: one
`lockdown_<policy>.csv` per tier, one `actions_effects_on_<status>.csv`
per status. -/
def skeletonNames : List String :=
  (lockdown_policies.map fun l => "lockdown_" ++ l ++ ".csv") ++
    (individual_status.map fun s => "actions_effects_on_" ++ s ++ ".csv")

/-- The exceptions of `create_empty_hypotheses` / `validate_param_file`. -/
inductive VError
  /-- `FileNotFoundError`: `params_individual.json` is absent (raised
  explicitly by the generator, by `open()` inside the validator). -/
  | fileNotFound
  /-- `IndexError`/`TypeError` inside `_get_one_hot_encoded_features`. -/
  | oneHotError
  /-- `ValueError("Hypothesis file(s) not found: ...")` listing every
  missing hypothesis file. -/
  | hypothesisFilesNotFound (missing : List String)
  /-- `ValueError("Missing features: ...")` listing, per file with a
  problem, the missing feature labels. -/
  | missingFeatures (report : List (String × List String))
  /-- `KeyError` on `hd["actions"]`. -/
  | keyError
  /-- `ValueError("Missing actions: ...")` listing, per file with a
  problem, the missing action labels. -/
  | missingActions (report : List (String × List String))
deriving DecidableEq, Repr

/-- Model of `Hypothesis.create_empty_hypotheses`: raise if the
specification file is absent, derive the encoded features, then write
the all-zero skeleton under every skeleton name; an error means nothing
was written. -/
def create_empty_hypotheses (fs : FS) : Except VError FS :=
  match fs.individual with
  | none => .error .fileNotFound
  | some spec =>
    match get_one_hot_encoded_features spec with
    | none => .error .oneHotError
    | some feats =>
      .ok (skeletonNames.foldl (fun acc n => setFile acc n (skeletonTable feats)) fs)

/-- The hypothesis files `validate_param_file` requires:
`actions_effects_on_<status>_<policy>.csv` for every status × policy,
then `lockdown_<policy>.csv` for every policy. -/
def requiredFnames : List String :=
  (individual_status.flatMap fun status =>
    lockdown_policies.map fun policy =>
      "actions_effects_on_" ++ status ++ "_" ++ policy ++ ".csv") ++
  lockdown_policies.map fun l => "lockdown_" ++ l ++ ".csv"

/-- `str.lower()` on an ASCII label, character by character. -/
def strLower (s : String) : String := ⟨s.data.map Char.toLower⟩

/-- `str.lower()` mapped over a list of labels. -/
def lowerAll (l : List String) : List String := l.map strLower

/-- Python set difference `set(xs) - set(ys)`, represented as the list
of distinct members of `xs` absent from `ys` (first-occurrence order
standing in for the arbitrary iteration order of a Python set). -/
def setDiff (xs ys : List String) : List String :=
  xs.eraseDups.filter fun a => ! ys.contains a

/-- `df[name]`: the cell column under the first header equal to `name`,
`none` modelling the `KeyError` when the header is absent. -/
def getColumn (t : Table) (name : String) : Option (List Cell) :=
  (t.columns.findIdx? fun c => c == name).map fun i =>
    t.rows.map fun r => r.getD i (.num 0)

/-- Per-file missing features: lowercased required labels minus
lowercased headers. -/
def missingFeats (required : List String) (t : Table) : List String :=
  setDiff (lowerAll required) (lowerAll t.columns)

/-- Per-file missing actions: `set(required_actions) - set(hd["actions"])`
(case-sensitive); `none` models the `KeyError` on a missing `actions`
header. -/
def missingActs (t : Table) : Option (List String) :=
  (getColumn t "actions").map fun col =>
    all_possible_actions.filter fun a => ! col.contains (.str a)

/-- The required hypothesis files found in the directory, with their
contents, in required order (all of them, once existence has been
checked). -/
def hypothesisData (fs : FS) : List (String × Table) :=
  requiredFnames.filterMap fun fn => (lookupFile fs fn).map fun t => (fn, t)

/-- The list comprehension of the action check, left to right: each
file's missing-action set, `none` when some file raises `KeyError`. -/
def collectActs : List (String × Table) → Option (List (String × List String))
  | [] => some []
  | p :: rest =>
    match missingActs p.2 with
    | none => none
    | some m =>
      match collectActs rest with
      | none => none
      | some ms => some ((p.1, m) :: ms)

/-- Model of `Hypothesis.validate_param_file`: existence of every
hypothesis file (aggregated over files), then — opening the
specification file only now — the feature check (aggregated over
files), then the action check (aggregated over files); the first check
that finds problems raises. -/
def validate_param_file (fs : FS) : Except VError Unit :=
  let fexist := requiredFnames.map fun fn => (lookupFile fs fn).isSome
  if fexist.all id then
    match fs.individual with
    | none => .error .fileNotFound
    | some spec =>
      match get_one_hot_encoded_features spec with
      | none => .error .oneHotError
      | some feats =>
        let required_features := "actions" :: "baseline" :: feats
        let mf := (hypothesisData fs).map fun p =>
          (p.1, missingFeats required_features p.2)
        if mf.any fun p => ! p.2.isEmpty then
          .error (.missingFeatures (mf.filter fun p => ! p.2.isEmpty))
        else
          match collectActs (hypothesisData fs) with
          | none => .error .keyError
          | some ma =>
            if ma.any fun p => ! p.2.isEmpty then
              .error (.missingActions (ma.filter fun p => ! p.2.isEmpty))
            else .ok ()
  else
    .error (.hypothesisFilesNotFound
      (requiredFnames.filter fun fn => (lookupFile fs fn).isNone))

/-- `create_empty_hypotheses` followed by `validate_param_file` on the
same directory. -/
def roundTrip (fs : FS) : Except VError Unit :=
  match create_empty_hypotheses fs with
  | .error e => .error e
  | .ok written => validate_param_file written

def specEx : PSpec :=
  [("gender", [[Cell.str "f", Cell.str "m"]]), ("age", [[Cell.num 30]])]

def fullTable : Table := skeletonTable ["gender_f", "gender_m", "age"]

def featMissingTable : Table :=
  { columns := ["actions", "baseline", "gender_f", "gender_m"]
    rows := all_possible_actions.map fun a =>
      .str a :: List.replicate 3 (.num 0) }

def actMissingTable : Table :=
  { columns := ["actions", "baseline", "gender_f", "gender_m", "age"]
    rows := (all_possible_actions.filter fun a => a != "travel").map fun a =>
      .str a :: List.replicate 4 (.num 0) }

def supersetTable : Table :=
  { columns := ["actions", "baseline", "gender_f", "gender_m", "age"]
    rows := (all_possible_actions ++ ["going_to_the_opera"]).map fun a =>
      .str a :: List.replicate 4 (.num 0) }

def fsC2 : FS :=
  ⟨some specEx,
   [("actions_effects_on_mh_absent.csv", featMissingTable),
    ("actions_effects_on_mh_easy.csv", fullTable),
    ("actions_effects_on_mh_medium.csv", fullTable),
    ("actions_effects_on_mh_hard.csv", fullTable),
    ("lockdown_absent.csv", actMissingTable),
    ("lockdown_easy.csv", fullTable),
    ("lockdown_medium.csv", fullTable),
    ("lockdown_hard.csv", fullTable)]⟩

def fsSuperset : FS :=
  ⟨some specEx, requiredFnames.map fun fn => (fn, supersetTable)⟩

def fsOk : FS :=
  ⟨some specEx, requiredFnames.map fun fn => (fn, fullTable)⟩

def fsPre : FS :=
  ⟨some specEx,
   [("actions_effects_on_mh_absent.csv", fullTable),
    ("actions_effects_on_mh_easy.csv", fullTable),
    ("actions_effects_on_mh_medium.csv", fullTable),
    ("actions_effects_on_mh_hard.csv", fullTable)]⟩

example : validate_param_file fsC2 =
    .error (.missingFeatures [("actions_effects_on_mh_absent.csv", ["age"])]) ∧
    missingActs actMissingTable = some ["travel"] := by decide

example : validate_param_file fsSuperset = .ok () := by decide

example : roundTrip fsPre = .ok () := by decide

example : validate_param_file ⟨none, []⟩ =
    .error (.hypothesisFilesNotFound requiredFnames) ∧
    validate_param_file ⟨none, requiredFnames.map fun fn => (fn, fullTable)⟩ =
      .error .fileNotFound := by decide

example : validate_param_file fsOk = .ok () := by decide

theorem find?_filter_ne (l : List (String × Table)) (name n : String)
    (h : name ≠ n) :
    (l.filter fun p => p.1 != n).find? (fun p => p.1 == name) =
      l.find? (fun p => p.1 == name) := by
  induction l with
  | nil => rfl
  | cons p rest ih =>
    by_cases hp : p.1 = name
    · have hkeep : (p.1 != n) = true := by
        rw [bne_iff_ne]; rw [hp]; exact h
      rw [List.filter_cons, if_pos hkeep]
      rw [List.find?_cons_of_pos _ (by simp [hp]), List.find?_cons_of_pos _ (by simp [hp])]
    · rw [List.filter_cons]
      by_cases hk : (p.1 != n) = true
      · rw [if_pos hk, List.find?_cons_of_neg _ (by simp [hp]),
          List.find?_cons_of_neg _ (by simp [hp])]
        exact ih
      · rw [if_neg hk, List.find?_cons_of_neg _ (by simp [hp])]
        exact ih

theorem lookupFile_setFile_self (fs : FS) (n : String) (t : Table) :
    lookupFile (setFile fs n t) n = some t := by
  unfold lookupFile setFile
  rw [List.find?_cons_of_pos _ (by simp)]
  rfl

theorem lookupFile_setFile_ne (fs : FS) (name n : String) (t : Table)
    (h : name ≠ n) :
    lookupFile (setFile fs n t) name = lookupFile fs name := by
  unfold lookupFile setFile
  rw [List.find?_cons_of_neg _ (by simp [Ne.symm h])]
  rw [find?_filter_ne _ _ _ h]

theorem lookupFile_writeAll_not_mem (names : List String) (fs : FS)
    (t : Table) (name : String) (h : name ∉ names) :
    lookupFile (names.foldl (fun acc n => setFile acc n t) fs) name =
      lookupFile fs name := by
  induction names generalizing fs with
  | nil => rfl
  | cons n ns ih =>
    rw [List.foldl_cons]
    rw [ih (setFile fs n t) fun hc => h (List.mem_cons_of_mem n hc)]
    exact lookupFile_setFile_ne fs name n t fun hc => h (hc ▸ List.mem_cons_self n ns)

theorem lookupFile_writeAll_mem (names : List String) (fs : FS)
    (t : Table) (name : String) (h : name ∈ names) :
    lookupFile (names.foldl (fun acc n => setFile acc n t) fs) name = some t := by
  induction names generalizing fs with
  | nil => cases h
  | cons n ns ih =>
    rw [List.foldl_cons]
    by_cases hmem : name ∈ ns
    · exact ih (setFile fs n t) hmem
    · have hname : name = n := by
        rcases List.mem_cons.mp h with h1 | h2
        · exact h1
        · exact absurd h2 hmem
      rw [lookupFile_writeAll_not_mem ns (setFile fs n t) t name hmem, hname]
      exact lookupFile_setFile_self fs n t

theorem allExist_map_all (fs : FS)
    (hex : ∀ fn ∈ requiredFnames, (lookupFile fs fn).isSome = true) :
    (requiredFnames.map fun fn => (lookupFile fs fn).isSome).all id = true := by
  rw [List.all_eq_true]
  intro b hb
  rw [List.mem_map] at hb
  obtain ⟨fn, hfn, rfl⟩ := hb
  exact hex fn hfn

/-- C3 (evidence of the divergence): `validate_param_file` does not
check the existence of `params_individual.json` first.  On a directory
with no files at all it raises the hypothesis-files-not-found
`ValueError` listing all eight required files; only when every
hypothesis file exists does a missing specification file surface, as
the `FileNotFoundError` of `open()` inside the feature check. -/
theorem validate_spec_file_not_checked_first :
    validate_param_file ⟨none, []⟩ =
      .error (.hypothesisFilesNotFound requiredFnames) ∧
    validate_param_file ⟨none, requiredFnames.map fun fn => (fn, fullTable)⟩ =
      .error .fileNotFound := by decide

/-- C2 (counterexample): a directory whose file
`actions_effects_on_mh_absent.csv` is missing the feature `age` while
its file `lockdown_absent.csv` is simultaneously missing the action
`travel` makes `validate_param_file` raise the missing-features error
alone — the missing action is not part of the report, refuting the
claim that all three schema checks aggregate into one message. -/
theorem validate_first_failing_check_raises_alone :
    validate_param_file fsC2 =
      .error (.missingFeatures [("actions_effects_on_mh_absent.csv", ["age"])]) ∧
    missingActs actMissingTable = some ["travel"] ∧
    ("lockdown_absent.csv", actMissingTable) ∈ fsC2.files := by decide

/-- C2 (amended): `validate_param_file` raises a single error per
invocation and each schema check aggregates across all files — here,
whenever every hypothesis file exists and some file has missing
features, the raised error is the missing-features one carrying, for
every file with a nonempty missing set, that file's name with its
missing labels; the action check never runs on such input. -/
theorem validate_missing_features_aggregated
    (fs : FS) (spec : PSpec) (feats : List String)
    (hspec : fs.individual = some spec)
    (hoh : get_one_hot_encoded_features spec = some feats)
    (hex : ∀ fn ∈ requiredFnames, (lookupFile fs fn).isSome = true)
    (hbad : ((hypothesisData fs).map fun p =>
        (p.1, missingFeats ("actions" :: "baseline" :: feats) p.2)).any
        (fun p => ! p.2.isEmpty) = true) :
    validate_param_file fs = .error (.missingFeatures
      (((hypothesisData fs).map fun p =>
          (p.1, missingFeats ("actions" :: "baseline" :: feats) p.2)).filter
        fun p => ! p.2.isEmpty)) := by
  unfold validate_param_file
  rw [if_pos (allExist_map_all fs hex), hspec]
  dsimp only
  rw [hoh]
  dsimp only
  rw [if_pos hbad]

theorem validate_missing_features_aggregated_witness :
    validate_param_file fsC2 =
      .error (.missingFeatures [("actions_effects_on_mh_absent.csv", ["age"])]) :=
  (validate_missing_features_aggregated fsC2 specEx
    ["gender_f", "gender_m", "age"] rfl (by decide) (by decide)
    (by decide)).trans (by decide)

/-- C10 (counterexample): a directory that already contains the four
`actions_effects_on_mh_<policy>.csv` files with a full schema, plus a
valid specification file, makes generate-then-validate succeed —
refuting the claim that the round trip always raises the
hypothesis-file-not-found error for every directory with a valid
specification file. -/
theorem roundTrip_succeeds_on_seeded_directory :
    roundTrip fsPre = .ok () ∧ fsPre.individual.isSome = true := by decide

/-- C10 (amended): for every directory with a valid specification file
that lacks at least one of the four `actions_effects_on_mh_<policy>.csv`
files, generate-then-validate raises the hypothesis-file-not-found
error naming that file: the generator writes
`actions_effects_on_mh.csv` (no policy suffix), never the suffixed
names the validator requires. -/
theorem roundTrip_missing_suffixed_actions_files
    (fs : FS) (spec : PSpec) (feats : List String) (name : String)
    (hspec : fs.individual = some spec)
    (hoh : get_one_hot_encoded_features spec = some feats)
    (hname : name ∈ ["actions_effects_on_mh_absent.csv",
      "actions_effects_on_mh_easy.csv", "actions_effects_on_mh_medium.csv",
      "actions_effects_on_mh_hard.csv"])
    (habs : lookupFile fs name = none) :
    ∃ missing, roundTrip fs = .error (.hypothesisFilesNotFound missing) ∧
      name ∈ missing := by
  have hnotin : name ∉ skeletonNames := by fin_cases hname <;> decide
  have hmemreq : name ∈ requiredFnames := by fin_cases hname <;> decide
  set written :=
    skeletonNames.foldl (fun acc n => setFile acc n (skeletonTable feats)) fs
    with hw
  have habs2 : lookupFile written name = none := by
    rw [hw, lookupFile_writeAll_not_mem _ _ _ _ hnotin]
    exact habs
  have hallf :
      ((requiredFnames.map fun fn => (lookupFile written fn).isSome).all id)
        = false := by
    rw [List.all_eq_false]
    exact ⟨(lookupFile written name).isSome, List.mem_map_of_mem _ hmemreq,
      by rw [habs2]; decide⟩
  refine ⟨requiredFnames.filter fun fn => (lookupFile written fn).isNone, ?_, ?_⟩
  · unfold roundTrip
    have hcr : create_empty_hypotheses fs = .ok written := by
      unfold create_empty_hypotheses
      rw [hspec]
      dsimp only
      rw [hoh]
    rw [hcr]
    dsimp only
    unfold validate_param_file
    dsimp only
    rw [if_neg (by rw [hallf]; exact Bool.false_ne_true)]
  · exact List.mem_filter.mpr ⟨hmemreq, by rw [habs2]; rfl⟩

theorem roundTrip_missing_suffixed_actions_files_witness :
    ∃ missing, roundTrip ⟨some specEx, []⟩ =
      .error (.hypothesisFilesNotFound missing) ∧
      "actions_effects_on_mh_absent.csv" ∈ missing :=
  roundTrip_missing_suffixed_actions_files ⟨some specEx, []⟩ specEx
    ["gender_f", "gender_m", "age"] "actions_effects_on_mh_absent.csv"
    rfl (by decide) (by decide) (by decide)

/-- The action-check comprehension evaluated when every file has an
`actions` header: one missing-action set per file. -/
theorem collectActs_eq (l : List (String × Table))
    (h : ∀ p ∈ l, (getColumn p.2 "actions").isSome = true) :
    collectActs l =
      some (l.map fun p => (p.1, all_possible_actions.filter fun a =>
        ! ((getColumn p.2 "actions").getD []).contains (.str a))) := by
  induction l with
  | nil => rfl
  | cons p rest ih =>
    have hp := h p (List.mem_cons_self p rest)
    obtain ⟨col, hcol⟩ := Option.isSome_iff_exists.mp hp
    have hma : missingActs p.2 =
        some (all_possible_actions.filter fun a => ! col.contains (.str a)) := by
      unfold missingActs
      rw [hcol]
      rfl
    have ih2 := ih fun q hq => h q (List.mem_cons_of_mem p hq)
    simp only [collectActs, hma, ih2, List.map_cons, hcol, Option.getD_some]

/-- C4 (amended): once existence and features pass and every file has
an `actions` header, `validate_param_file` succeeds if and only if every
file's `actions` column contains every action of the vocabulary — a set
inclusion, not an equality, so a strict superset of the vocabulary is
accepted. -/
theorem validate_actions_superset_ok
    (fs : FS) (spec : PSpec) (feats : List String)
    (hspec : fs.individual = some spec)
    (hoh : get_one_hot_encoded_features spec = some feats)
    (hex : ∀ fn ∈ requiredFnames, (lookupFile fs fn).isSome = true)
    (hfeats : ∀ p ∈ hypothesisData fs,
      missingFeats ("actions" :: "baseline" :: feats) p.2 = [])
    (hcols : ∀ p ∈ hypothesisData fs, (getColumn p.2 "actions").isSome = true) :
    (validate_param_file fs = .ok ()) ↔
      ∀ p ∈ hypothesisData fs, ∀ a ∈ all_possible_actions,
        ((getColumn p.2 "actions").getD []).contains (.str a) = true := by
  unfold validate_param_file
  rw [if_pos (allExist_map_all fs hex), hspec]
  dsimp only
  rw [hoh]
  dsimp only
  have hmf : (((hypothesisData fs).map fun p =>
      (p.1, missingFeats ("actions" :: "baseline" :: feats) p.2)).any
      fun p => ! p.2.isEmpty) = false := by
    rw [List.any_eq_false]
    intro x hx
    rw [List.mem_map] at hx
    obtain ⟨p, hp, rfl⟩ := hx
    rw [hfeats p hp]
    simp
  rw [if_neg (by rw [hmf]; exact Bool.false_ne_true)]
  rw [collectActs_eq _ hcols]
  dsimp only
  by_cases hb : (((hypothesisData fs).map fun p =>
      (p.1, all_possible_actions.filter fun a =>
        ! ((getColumn p.2 "actions").getD []).contains (.str a))).any
      fun p => ! p.2.isEmpty) = true
  · rw [if_pos hb]
    constructor
    · intro hcontra
      cases hcontra
    · intro hrhs
      exfalso
      rw [List.any_eq_true] at hb
      obtain ⟨x, hx, hxe⟩ := hb
      rw [List.mem_map] at hx
      obtain ⟨p, hp, rfl⟩ := hx
      have hempty : (all_possible_actions.filter fun a =>
          ! ((getColumn p.2 "actions").getD []).contains (.str a)) = [] := by
        rw [List.filter_eq_nil_iff]
        intro a ha
        rw [hrhs p hp a ha]
        decide
      rw [hempty] at hxe
      cases hxe
  · rw [if_neg hb]
    constructor
    · intro _ p hp a ha
      rw [Bool.not_eq_true, List.any_eq_false] at hb
      have hx := hb _ (List.mem_map_of_mem
        (fun p => (p.1, all_possible_actions.filter fun a =>
          ! ((getColumn p.2 "actions").getD []).contains (.str a))) hp)
      simp at hx
      simpa using hx a ha
    · intro _
      rfl

/-- C4 (counterexample): a directory whose eight files all carry the
full action vocabulary plus the extra label `going_to_the_opera`
validates successfully, refuting the claim that a strict superset of
the action vocabulary is rejected. -/
theorem validate_accepts_actions_superset :
    validate_param_file fsSuperset = .ok () ∧
    (getColumn supersetTable "actions").map
      (fun col => col.contains (.str "going_to_the_opera")) = some true ∧
    all_possible_actions.contains "going_to_the_opera" = false ∧
    ("actions_effects_on_mh_absent.csv", supersetTable) ∈ fsSuperset.files := by
  decide

theorem validate_actions_superset_ok_witness :
    validate_param_file fsOk = .ok () :=
  (validate_actions_superset_ok fsOk specEx ["gender_f", "gender_m", "age"]
    rfl (by decide) (by decide) (by decide) (by decide)).mpr (by decide)

/-- C8: on a directory with a valid specification file,
`create_empty_hypotheses` writes exactly one skeleton CSV per lockdown
tier (four) and one per status value (one `actions_effects_on_mh.csv`),
each with columns `actions`, `baseline` followed by the encoded feature
columns, one row per action of the ten-element vocabulary in vocabulary
order with every non-action cell zero; when the specification file is
missing it raises `FileNotFoundError` without writing anything. -/
theorem create_empty_hypotheses_contract :
    (∀ (fs : FS) (spec : PSpec) (feats : List String),
      fs.individual = some spec →
      get_one_hot_encoded_features spec = some feats →
      ∃ fs', create_empty_hypotheses fs = .ok fs' ∧
        skeletonNames = ["lockdown_absent.csv", "lockdown_easy.csv",
          "lockdown_medium.csv", "lockdown_hard.csv",
          "actions_effects_on_mh.csv"] ∧
        (∀ name ∈ skeletonNames, lookupFile fs' name = some (skeletonTable feats)) ∧
        (skeletonTable feats).columns = "actions" :: "baseline" :: feats ∧
        (skeletonTable feats).rows.length = all_possible_actions.length ∧
        all_possible_actions.length = 10 ∧
        (∀ i : Nat, ((skeletonTable feats).rows)[i]? =
          (all_possible_actions[i]?).map fun a =>
            Cell.str a :: List.replicate (feats.length + 1) (Cell.num 0))) ∧
    (∀ files : List (String × Table),
      create_empty_hypotheses ⟨none, files⟩ = .error .fileNotFound) := by
  constructor
  · intro fs spec feats hspec hoh
    refine ⟨skeletonNames.foldl (fun acc n => setFile acc n (skeletonTable feats)) fs,
      ?_, by decide, ?_, rfl, by simp [skeletonTable], by decide, ?_⟩
    · unfold create_empty_hypotheses
      rw [hspec]
      dsimp only
      rw [hoh]
    · intro name hmem
      exact lookupFile_writeAll_mem _ _ _ _ hmem
    · intro i
      simp [skeletonTable]
  · intro files
    rfl

theorem create_empty_hypotheses_contract_witness :
    ∃ fs', create_empty_hypotheses ⟨some specEx, []⟩ = .ok fs' ∧
      lookupFile fs' "actions_effects_on_mh.csv" =
        some (skeletonTable ["gender_f", "gender_m", "age"]) := by
  obtain ⟨fs', h1, _, h3, _⟩ := create_empty_hypotheses_contract.1
    ⟨some specEx, []⟩ specEx ["gender_f", "gender_m", "age"] rfl (by decide)
  exact ⟨fs', h1, h3 _ (by decide)⟩

def specFeatureColumns (spec : PSpec) : List String :=
  spec.flatMap fun p =>
    if (p.2.headD []).all isStrCell then
      (p.2.headD []).map fun c => p.1 ++ "_" ++ cellString c
    else [p.1]

theorem encodeLevels_all_str (key : String) (l : List Cell)
    (h : l.all isStrCell = true) :
    encodeLevels key l = some (l.map fun c => key ++ "_" ++ cellString c) := by
  induction l with
  | nil => rfl
  | cons c rest ih =>
    cases c with
    | str s =>
      have hrest : rest.all isStrCell = true := by
        rw [List.all_cons] at h
        exact (Bool.and_eq_true _ _).mp h |>.2
      simp only [encodeLevels, ih hrest, Option.map_some, List.map_cons]
      rfl
    | num n =>
      rw [List.all_cons] at h
      cases h

/-- C7: for every well-formed specification mapping (each attribute's
first example entry nonempty and either all-string or led by a
non-string, the input contract of §4.3), the feature encoder returns
exactly the columns described by the spec: categorical attributes
expand in level order to one `attribute_level` column per level, other
attributes pass through as a single column, in specification order. -/
theorem one_hot_matches_spec_description (spec : PSpec)
    (hwf : ∀ p ∈ spec, p.2 ≠ [] ∧ p.2.headD [] ≠ [] ∧
      ((p.2.headD []).all isStrCell = true ∨
        isStrCell ((p.2.headD []).headD (.num 0)) = false)) :
    get_one_hot_encoded_features spec = some (specFeatureColumns spec) := by
  induction spec with
  | nil => rfl
  | cons p rest ih =>
    obtain ⟨hne, hfne, hdisj⟩ := hwf p (List.mem_cons_self p rest)
    have ihr := ih fun q hq => hwf q (List.mem_cons_of_mem p hq)
    obtain ⟨l', hl', hfl⟩ : ∃ l', (rest.mapM fun kv => encodeEntry kv.1 kv.2) = some l' ∧
        l'.flatten = specFeatureColumns rest := by
      unfold get_one_hot_encoded_features at ihr
      obtain ⟨l', h1, h2⟩ := Option.map_eq_some'.mp ihr
      exact ⟨l', h1, h2⟩
    obtain ⟨firstList, v', hv⟩ : ∃ firstList v', p.2 = firstList :: v' := by
      cases hv : p.2 with
      | nil => exact absurd hv hne
      | cons a b => exact ⟨a, b, rfl⟩
    obtain ⟨c, cs, hc⟩ : ∃ c cs, firstList = c :: cs := by
      cases hcs : firstList with
      | nil =>
        rw [hv, hcs] at hfne
        simp at hfne
      | cons a b => exact ⟨a, b, rfl⟩
    have hentry : encodeEntry p.1 p.2 =
        some (if firstList.all isStrCell then
          firstList.map fun x => p.1 ++ "_" ++ cellString x
        else [p.1]) := by
      rw [hv, hc]
      cases c with
      | str s =>
        have hall : (Cell.str s :: cs).all isStrCell = true := by
          rcases hdisj with h1 | h2
          · rw [hv, hc] at h1
            simpa using h1
          · rw [hv, hc] at h2
            simp [isStrCell] at h2
        simp only [encodeEntry, hall, if_pos]
        exact encodeLevels_all_str _ _ hall
      | num n =>
        have hnotall : ((Cell.num n :: cs).all isStrCell) = false := by
          simp [isStrCell]
        simp only [encodeEntry, hnotall]
        rfl
    have hhd : p.2.headD [] = firstList := by rw [hv]; rfl
    unfold get_one_hot_encoded_features
    rw [List.mapM_cons, hentry, hl']
    unfold specFeatureColumns
    unfold specFeatureColumns at hfl
    rw [List.flatMap_cons, hhd, ← hfl]
    simp

theorem one_hot_matches_spec_description_witness :
    get_one_hot_encoded_features specEx = some ["gender_f", "gender_m", "age"] :=
  (one_hot_matches_spec_description specEx (by decide)).trans (by decide)

def setEqL (xs ys : List String) : Bool :=
  xs.all (ys.contains ·) && ys.all (xs.contains ·)

def setEqC (xs ys : List Cell) : Bool :=
  xs.all (ys.contains ·) && ys.all (xs.contains ·)

def diffIndicesFrom (i : Nat) : List String → List String → List Nat
  | x :: xs, y :: ys =>
    if x != y then i :: diffIndicesFrom (i + 1) xs ys
    else diffIndicesFrom (i + 1) xs ys
  | _, _ => []

def diffIndices (xs ys : List String) : List Nat := diffIndicesFrom 0 xs ys

inductive CheckError
  | noCsvFiles
  | keyError
  | columnCount
  | rowCount
  | columnNames (missing additional : List String)
  | columnOrder (indices : List Nat)
  | actionsEntries
deriving DecidableEq, Repr

def checkAgainstBase (numColumns numRows : Nat) (columnNames : List String)
    (actions : List Cell) (t : Table) : Except CheckError Unit :=
  let cols := lowerAll t.columns
  if cols.length ≠ numColumns then .error .columnCount
  else if t.rows.length ≠ numRows then .error .rowCount
  else if ¬ setEqL cols columnNames then
    .error (.columnNames (setDiff columnNames cols) (setDiff cols columnNames))
  else if cols ≠ columnNames then
    .error (.columnOrder (diffIndices cols columnNames))
  else
    match getColumn ⟨cols, t.rows⟩ "actions" with
    | none => .error .keyError
    | some acts =>
      if ¬ setEqC acts actions then .error .actionsEntries else .ok ()

def checkRest (numColumns numRows : Nat) (columnNames : List String)
    (actions : List Cell) : List Table → Except CheckError Unit
  | [] => .ok ()
  | t :: ts =>
    match checkAgainstBase numColumns numRows columnNames actions t with
    | .error e => .error e
    | .ok _ => checkRest numColumns numRows columnNames actions ts

def test_input_example_matrices (tables : List Table) : Except CheckError Unit :=
  match tables with
  | [] => .error .noCsvFiles
  | first_df :: rest =>
    match getColumn first_df "actions" with
    | none => .error .keyError
    | some acts =>
      checkRest (lowerAll first_df.columns).length first_df.rows.length
        (lowerAll first_df.columns) acts rest

theorem diffIndicesFrom_head (xs : List String) :
    ∀ (ys : List String) (i : Nat), xs.length = ys.length → xs ≠ ys →
    ∃ k, (diffIndicesFrom i xs ys).head? = some (i + k) ∧
      xs[k]? ≠ ys[k]? ∧ ∀ j < k, xs[j]? = ys[j]? := by
  induction xs with
  | nil =>
    intro ys i hl hne
    cases ys with
    | nil => exact absurd rfl hne
    | cons y ys => cases hl
  | cons x xs ih =>
    intro ys i hl hne
    cases ys with
    | nil => cases hl
    | cons y ys =>
      by_cases hxy : x = y
      · subst hxy
        have hne2 : xs ≠ ys := fun hcontra => hne (by rw [hcontra])
        obtain ⟨k, h1, h2, h3⟩ := ih ys (i + 1) (by simpa using hl) hne2
        refine ⟨k + 1, ?_, by simpa using h2, ?_⟩
        · unfold diffIndicesFrom
          rw [if_neg (by simp)]
          rw [h1]
          congr 1
          omega
        · intro j hj
          cases j with
          | zero => simp
          | succ j' =>
            have := h3 j' (Nat.lt_of_succ_lt_succ hj)
            simpa using this
      · refine ⟨0, ?_, by simpa using hxy, fun j hj => absurd hj (Nat.not_lt_zero j)⟩
        unfold diffIndicesFrom
        rw [if_pos (bne_iff_ne.mpr hxy)]
        simp

/-- C6: for every pair of sibling CSV tables with equally many
columns and rows, the same (case-lowered) column-name set but a
different column order, the cross-file consistency check fails with the
column-order error, and the reported index list leads with the first
position at which the two column orders diverge (every earlier position
agrees). -/
theorem csv_check_order_divergence
    (base other : Table) (acts : List Cell)
    (hacts : getColumn base "actions" = some acts)
    (hlen : other.columns.length = base.columns.length)
    (hrows : other.rows.length = base.rows.length)
    (hset : setEqL (lowerAll other.columns) (lowerAll base.columns) = true)
    (hne : lowerAll other.columns ≠ lowerAll base.columns) :
    test_input_example_matrices [base, other] =
      .error (.columnOrder
        (diffIndices (lowerAll other.columns) (lowerAll base.columns))) ∧
    ∃ k, (diffIndices (lowerAll other.columns) (lowerAll base.columns)).head? =
        some k ∧
      (lowerAll other.columns)[k]? ≠ (lowerAll base.columns)[k]? ∧
      ∀ j < k, (lowerAll other.columns)[j]? = (lowerAll base.columns)[j]? := by
  constructor
  · unfold test_input_example_matrices
    dsimp only
    rw [hacts]
    dsimp only
    unfold checkRest
    unfold checkAgainstBase
    dsimp only
    rw [if_neg (by simp [lowerAll, hlen])]
    rw [if_neg (by simp [hrows])]
    rw [if_neg (by simp [hset])]
    rw [if_pos hne]
  · have hl : (lowerAll other.columns).length = (lowerAll base.columns).length := by
      simp [lowerAll, hlen]
    obtain ⟨k, h1, h2, h3⟩ :=
      diffIndicesFrom_head (lowerAll other.columns) (lowerAll base.columns) 0 hl hne
    exact ⟨k, by simpa using h1, h2, h3⟩

theorem csv_check_order_divergence_witness :
    test_input_example_matrices
      [⟨["actions", "baseline", "age"], []⟩,
       ⟨["actions", "age", "baseline"], []⟩] =
      .error (.columnOrder [1, 2]) := by
  have h := (csv_check_order_divergence
    ⟨["actions", "baseline", "age"], []⟩
    ⟨["actions", "age", "baseline"], []⟩ []
    (by decide) (by decide) (by decide) (by decide) (by decide)).1
  exact h.trans (by decide)
